import Mathlib

/-!
Shallow embedding of the compass deployment-pipeline core
(package `core`, file `stage.go`, and the helm values helpers):
the value-map operations (`LoadVals`, `MergeVals`, `cpVals`),
the shell-hook helpers (`shellVars`, `shellJobs`), the requirement
check (`checkRequires`), and the per-stage lifecycle actions
`Create` and `Destroy`, modelled as functions producing an outcome
together with the ordered trace of externally visible events
(dependency-graph calls, backend calls, hook executions).

Go maps of type map[string]string are modelled as association lists
with distinct keys (`Vals`); iteration order of a Go map is
unspecified, so theorems about merged maps are stated via lookup.
Go control flow is translated literally, including the two defer
statements in `Create` (LIFO order), the semantics of `panic`
(deferred calls run) versus `log.Fatalf` (process exits immediately,
deferred calls do not run), and the discarded error returns at the
before-hook call and the UpgradeChart call.
-/

namespace Compass

/-- Association-list model of Go map[string]string. -/
abbrev Vals := List (String × String)

/-- Lookup of a key in a values map: the Go map read values[k]. -/
def lookupVal (m : Vals) (k : String) : Option String :=
  match m with
  | [] => none
  | (k2, v) :: rest => if k2 = k then some v else lookupVal rest k

/-- Go map assignment prev[key] = value: replace the binding if the key is
present, otherwise add it. -/
def setVal (m : Vals) (k v : String) : Vals :=
  match m with
  | [] => [(k, v)]
  | (k2, v2) :: rest => if k2 = k then (k2, v) :: rest else (k2, v2) :: setVal rest k v

/-- MergeVals(prev, next) from the helm package: for key, value := range next,
prev[key] = value. Mutation of prev is modelled by returning the updated map. -/
def MergeVals (prev next : Vals) : Vals :=
  next.foldl (fun m kv => setVal m kv.1 kv.2) prev

/-- cpVals from stage.go: copies the values map entry by entry; as a value the
copy equals the original (the aliasing aspect is modelled in the store-level
functions below). -/
def cpVals (prev : Vals) : Vals := prev

/-- LoadVals from the helm package: an empty path yields a nil map; otherwise
the file named by the path is read and unmarshalled, modelled by the
environment function fs (which returns the empty map on read or unmarshal
errors, matching the nil map returned by the Go code on those paths). -/
def LoadVals (vals : String) (fs : String → Vals) : Vals :=
  if vals = "" then [] else fs vals

/-- shellVars from stage.go: envs := make([]string, len(vals)) allocates
len(vals) zero-value (empty) strings, and the loop then appends one
KEY=VALUE entry per binding, so the result has the empty strings first. -/
def shellVars (vals : Vals) : List String :=
  List.replicate vals.length "" ++ vals.map (fun kv => kv.1 ++ "=" ++ kv.2)

/-- Environment handed to a hook subprocess: cmd.Env = append(values,
os.Environ()...) in shellJobs. -/
def hookEnv (values osEnviron : List String) : List String :=
  values ++ osEnviron

/-- checkRequires from stage.go: returns the error "requirement not met" at
the first required key missing from the values map, none on success. -/
def checkRequires (values : Vals) : List String → Option String
  | [] => none
  | r :: rest =>
    if (lookupVal values r).isNone then some "requirement not met"
    else checkRequires values rest

theorem lookupVal_setVal (m : Vals) (k v q : String) :
    lookupVal (setVal m k v) q = if k = q then some v else lookupVal m q := by
  induction m with
  | nil =>
    simp only [setVal, lookupVal]
  | cons hd tl ih =>
    obtain ⟨k2, v2⟩ := hd
    by_cases hk : k2 = k
    · subst hk
      by_cases hq : k2 = q
      · subst hq
        simp [setVal, lookupVal]
      · simp [setVal, lookupVal, hq]
    · by_cases hq : k2 = q
      · subst hq
        have hk2 : k ≠ k2 := fun h => hk h.symm
        simp [setVal, lookupVal, hk, hk2]
      · simp [setVal, lookupVal, hk, hq, ih]

theorem lookupVal_eq_none_iff (m : Vals) (k : String) :
    lookupVal m k = none ↔ k ∉ m.map Prod.fst := by
  induction m with
  | nil => simp [lookupVal]
  | cons hd tl ih =>
    obtain ⟨k2, v2⟩ := hd
    by_cases h : k2 = k
    · subst h
      simp [lookupVal]
    · simp [lookupVal, h, ih, Ne.symm h]

theorem mergeVals_lookup (next : Vals) (hnd : (next.map Prod.fst).Nodup) :
    ∀ (prev : Vals) (k : String),
      lookupVal (MergeVals prev next) k =
        match lookupVal next k with
        | some v => some v
        | none => lookupVal prev k := by
  induction next with
  | nil =>
    intro prev k
    simp [MergeVals, lookupVal]
  | cons hd tl ih =>
    intro prev k
    obtain ⟨k0, v0⟩ := hd
    simp only [List.map_cons, List.nodup_cons] at hnd
    obtain ⟨hk0, htl⟩ := hnd
    have hstep : MergeVals prev ((k0, v0) :: tl) = MergeVals (setVal prev k0 v0) tl := by
      simp [MergeVals]
    rw [hstep, ih htl]
    by_cases h : k0 = k
    · subst h
      have : lookupVal tl k0 = none := by
        rw [lookupVal_eq_none_iff]
        exact hk0
      simp [lookupVal, this, lookupVal_setVal]
    · simp only [lookupVal, if_neg h]
      cases htlk : lookupVal tl k with
      | some v => rfl
      | none => simp [lookupVal_setVal, h]

/-- Jobs from stage.go: the before and after shell command lists. -/
structure Jobs where
  Before : List String
  After : List String
deriving DecidableEq, Repr

/-- Stage from stage.go, with the fields of the inlined helm.Chart that the
lifecycle actions read (Release and Namespace). -/
structure Stage where
  Release : String
  Namespace : String
  Abandon : Bool
  Values : String
  Requires : List String
  Depends : List String
  Jobs : Jobs
  Templates : List String
deriving DecidableEq, Repr

/-- Externally visible events of a stage action, in execution order:
calls on the DependencyGraph (waitKeys, complete), calls on the release
backend (statusQuery, deleteRelease, installChart, upgradeChart), shell
hook executions (runJob) and template renderings (render). -/
inductive Event where
  | statusQuery (release : String)
  | waitKeys (keys : List String)
  | runJob (cmd : String)
  | render (tpl : String)
  | deleteRelease (release : String)
  | installChart (release : String)
  | upgradeChart (release : String)
  | complete (keys : List String)
deriving DecidableEq, Repr

/-- Outcome of a stage action: a normal return (ok or an error value), a
panic (deferred calls run before the goroutine dies), or log.Fatalf
(os.Exit: the process terminates at once and deferred calls do not run). -/
inductive Outcome where
  | ok
  | err (msg : String)
  | fatal (msg : String)
  | panicked
deriving DecidableEq, Repr

/-- Holds when the outcome is a log.Fatalf process exit. -/
def Outcome.isFatal : Outcome → Bool
  | Outcome.fatal _ => true
  | _ => false

/-- External world of one Create call: the results the release backend, the
shell, and the file system return to this stage. statusPre and statusRe are
the results of the preflight status query and of the re-query before the
install-or-upgrade decision (the two calls are independent reads of mutable
cluster state). renderOk models Generate, which calls log.Fatalf when the
template fails to parse or execute. -/
structure CreateEnv where
  statusPre : String × Option String
  statusRe : String × Option String
  install : Option String
  upgrade : Option String
  deleteRel : Option String
  runJob : String → Option String
  readFile : String → Option String
  renderOk : String → Bool
  loadVals : String → Vals

/-- shellJobs from stage.go: runs the commands in order, stopping at the
first failing command and returning its error; also returns the trace of
commands actually started. -/
def shellJobs (run : String → Option String) : List String → List Event × Option String
  | [] => ([], none)
  | c :: rest =>
    match run c with
    | some e => ([Event.runJob c], some e)
    | none =>
      let r := shellJobs run rest
      (Event.runJob c :: r.1, r.2)

/-- Exit of the template-rendering loop of Create: proceed normally, panic
on a file-read error (panic(read)), or die by log.Fatalf inside Generate
on a parse or execute error. -/
inductive LoopExit where
  | proceed
  | panicked
  | fatalExit
deriving DecidableEq, Repr

/-- Template loop of Create (lines 159 to 165): read each template file
(panicking when the read fails) and render it through Generate (which
log.Fatalf-s when rendering fails). -/
def renderLoop (readFile : String → Option String) (renderOk : String → Bool) :
    List String → List Event × LoopExit
  | [] => ([], LoopExit.proceed)
  | t :: rest =>
    match readFile t with
    | none => ([], LoopExit.panicked)
    | some _ =>
      if renderOk t then
        let r := renderLoop readFile renderOk rest
        (Event.render t :: r.1, r.2)
      else
        ([Event.render t], LoopExit.fatalExit)

/-- Effective values of a stage, exactly as Create derives them (lines 143
to 146): a copy of the shared map, overlaid with the stage value file, then
the namespace entry, then the release entry. -/
def effValsOf (env : CreateEnv) (stage : Stage) (main : Vals) : Vals :=
  MergeVals
    (MergeVals
      (MergeVals (cpVals main) (LoadVals stage.Values env.loadVals))
      [("namespace", stage.Namespace)])
    [("release", stage.Release)]

/-- Install-or-upgrade decision of Create (lines 171 to 192), given the
events the two deferred calls would contribute on a normal return. When the
re-queried status is PENDING_INSTALL with no error, the stale release is
deleted first and the chart installed; when the status query errors, the
chart is installed directly; otherwise the chart is upgraded. An InstallChart
error is log.Fatalf (no deferred calls run); the UpgradeChart error is
discarded by the source, and the err the source re-tests after UpgradeChart
is the status-query error, which is nil on that branch, so the upgrade
branch always returns nil. -/
def createInstallOrUpgrade (env : CreateEnv) (stage : Stage) (deferEvs : List Event) :
    Outcome × List Event :=
  let st := env.statusRe.1
  let e2 := env.statusRe.2
  if st = "PENDING_INSTALL" ∨ e2.isSome then
    let delEvs := if e2.isNone then [Event.deleteRelease stage.Release] else []
    match env.install with
    | some e => (Outcome.fatal ("failed to install : " ++ e), delEvs ++ [Event.installChart stage.Release])
    | none => (Outcome.ok, delEvs ++ [Event.installChart stage.Release] ++ deferEvs)
  else
    (Outcome.ok, [Event.upgradeChart stage.Release] ++ deferEvs)

/-- Create from stage.go (lines 135 to 193). deps.Complete(key) is deferred
on entry, and shellJobs on the after hooks is deferred right after the
before hooks run, so on a normal return or a panic the after hooks run
first and the completion signal last (LIFO); on a log.Fatalf neither runs.
The error returned by shellJobs on the before hooks is discarded by the
source (line 155), so a failing before hook does not abort the stage. -/
def Create (env : CreateEnv) (stage : Stage) (key : String) (main : Vals) :
    Outcome × List Event :=
  let preEv := [Event.statusQuery stage.Release]
  if env.statusPre.2.isNone && stage.Abandon then
    (Outcome.err "chart already installed", preEv ++ [Event.complete [key]])
  else
    let values := effValsOf env stage main
    match checkRequires values stage.Requires with
    | some msg => (Outcome.err msg, preEv ++ [Event.complete [key]])
    | none =>
      let bres := shellJobs env.runJob stage.Jobs.Before
      let ares := shellJobs env.runJob stage.Jobs.After
      let deferEvs := ares.1 ++ [Event.complete [key]]
      let evs2 := preEv ++ [Event.waitKeys stage.Depends] ++ bres.1
      match renderLoop env.readFile env.renderOk stage.Templates with
      | (revs, LoopExit.panicked) => (Outcome.panicked, evs2 ++ revs ++ deferEvs)
      | (revs, LoopExit.fatalExit) => (Outcome.fatal "failed to render", evs2 ++ revs)
      | (revs, LoopExit.proceed) =>
        let r := createInstallOrUpgrade env stage deferEvs
        (r.1, evs2 ++ revs ++ [Event.statusQuery stage.Release] ++ r.2)

/-- External world of one Destroy call: the result of DeleteRelease. -/
structure DestroyEnv where
  deleteRel : Option String

/-- Destroy from stage.go (lines 121 to 132): deps.Complete on every key in
stage.Depends is deferred on entry; the requirement check runs against the
externally supplied values; then the stage waits on its own key and deletes
the release, returning the backend error if any. -/
def Destroy (env : DestroyEnv) (stage : Stage) (key : String) (values : Vals) :
    Outcome × List Event :=
  match checkRequires values stage.Requires with
  | some msg => (Outcome.err msg, [Event.complete stage.Depends])
  | none =>
    let evs := [Event.waitKeys [key], Event.deleteRelease stage.Release]
    match env.deleteRel with
    | some e => (Outcome.err e, evs ++ [Event.complete stage.Depends])
    | none => (Outcome.ok, evs ++ [Event.complete stage.Depends])

/-- Holds of a deps.Complete event whose key set contains the given key. -/
def isCompleteFor (key : String) : Event → Bool
  | Event.complete ks => ks.contains key
  | _ => false

/-- Holds of a deps.Wait event. -/
def isWaitEv : Event → Bool
  | Event.waitKeys _ => true
  | _ => false

/-- Holds of an InstallChart event. -/
def isInstallEv : Event → Bool
  | Event.installChart _ => true
  | _ => false

/-- Holds of a DeleteRelease event. -/
def isDeleteEv : Event → Bool
  | Event.deleteRelease _ => true
  | _ => false

/-- Holds of an UpgradeChart event. -/
def isUpgradeEv : Event → Bool
  | Event.upgradeChart _ => true
  | _ => false

/-- Holds of a release-backend mutation event (install, upgrade or delete). -/
def isBackendMutation (e : Event) : Bool :=
  isInstallEv e || isDeleteEv e || isUpgradeEv e

/-- Number of trace events satisfying a predicate. -/
def countEv (p : Event → Bool) (tr : List Event) : Nat := tr.countP p

theorem countEv_append (p : Event → Bool) (a b : List Event) :
    countEv p (a ++ b) = countEv p a + countEv p b :=
  List.countP_append p a b

theorem countEv_eq_zero (p : Event → Bool) (tr : List Event)
    (h : ∀ e ∈ tr, p e = false) : countEv p tr = 0 := by
  rw [countEv, List.countP_eq_zero]
  intro a ha
  simp [h a ha]

theorem shellJobs_events (run : String → Option String) (js : List String) :
    ∀ e ∈ (shellJobs run js).1, ∃ c, e = Event.runJob c := by
  induction js with
  | nil => simp [shellJobs]
  | cons c rest ih =>
    intro e he
    simp only [shellJobs] at he
    cases hr : run c with
    | some msg =>
      rw [hr] at he
      simp only [List.mem_singleton] at he
      exact ⟨c, he⟩
    | none =>
      rw [hr] at he
      simp only [List.mem_cons] at he
      cases he with
      | inl h => exact ⟨c, h⟩
      | inr h => exact ih e h

theorem renderLoop_events (rf : String → Option String) (ro : String → Bool)
    (ts : List String) :
    ∀ e ∈ (renderLoop rf ro ts).1, ∃ t, e = Event.render t := by
  induction ts with
  | nil => simp [renderLoop]
  | cons t rest ih =>
    intro e he
    simp only [renderLoop] at he
    cases hr : rf t with
    | none =>
      rw [hr] at he
      simp at he
    | some d =>
      rw [hr] at he
      by_cases hro : ro t
      · simp only [if_pos hro, List.mem_cons] at he
        cases he with
        | inl h => exact ⟨t, h⟩
        | inr h => exact ih e h
      · simp only [if_neg hro, List.mem_singleton] at he
        exact ⟨t, he⟩

theorem countEv_shellJobs_zero (p : Event → Bool) (run : String → Option String)
    (js : List String) (hp : ∀ c, p (Event.runJob c) = false) :
    countEv p (shellJobs run js).1 = 0 := by
  apply countEv_eq_zero
  intro e he
  obtain ⟨c, rfl⟩ := shellJobs_events run js e he
  exact hp c

theorem countEv_renderLoop_zero (p : Event → Bool) (rf : String → Option String)
    (ro : String → Bool) (ts : List String) (hp : ∀ t, p (Event.render t) = false) :
    countEv p (renderLoop rf ro ts).1 = 0 := by
  apply countEv_eq_zero
  intro e he
  obtain ⟨t, rfl⟩ := renderLoop_events rf ro ts e he
  exact hp t

/-- Heap of Go map values, addressed by allocation index: lets the model
distinguish mutating a shared map from mutating a private copy. -/
abbrev Store := List Vals

/-- Reads the map held at a reference. -/
def storeGet (σ : Store) (r : Nat) : Vals := σ.getD r []

/-- Writes the map held at a reference. -/
def storeSet (σ : Store) (r : Nat) (m : Vals) : Store := σ.set r m

/-- cpVals at the store level: make(map[string]string, len(prev)) allocates a
fresh map and the loop copies every entry into it, so the result is a new
reference holding an equal map. -/
def cpValsS (σ : Store) (r : Nat) : Store × Nat :=
  (σ ++ [storeGet σ r], σ.length)

/-- MergeVals at the store level: mutates the map behind the reference in
place. -/
def mergeValsS (σ : Store) (r : Nat) (next : Vals) : Store :=
  storeSet σ r (MergeVals (storeGet σ r) next)

/-- Value derivation of Create (lines 143 to 146) at the store level: copy
the shared map, then merge the stage value file, the namespace entry and
the release entry into the copy. Returns the store and the reference to the
stage's effective values. -/
def createDeriveVals (env : CreateEnv) (stage : Stage) (σ : Store) (mainRef : Nat) :
    Store × Nat :=
  let c := cpValsS σ mainRef
  let σ1 := mergeValsS c.1 c.2 (LoadVals stage.Values env.loadVals)
  let σ2 := mergeValsS σ1 c.2 [("namespace", stage.Namespace)]
  let σ3 := mergeValsS σ2 c.2 [("release", stage.Release)]
  (σ3, c.2)

theorem set_append_last {α : Type} (σ : List α) (x y : α) :
    (σ ++ [x]).set σ.length y = σ ++ [y] := by
  induction σ with
  | nil => rfl
  | cons a as ih =>
    simp only [List.cons_append, List.length_cons, List.set_cons_succ, ih]

theorem createDeriveVals_eq (env : CreateEnv) (stage : Stage) (σ : Store) (mainRef : Nat) :
    createDeriveVals env stage σ mainRef =
      (σ ++ [effValsOf env stage (storeGet σ mainRef)], σ.length) := by
  have hget : ∀ m : Vals, storeGet (σ ++ [m]) σ.length = m := by
    intro m
    simp [storeGet, List.getD_append_right, le_refl]
  simp only [createDeriveVals, cpValsS, mergeValsS, storeSet, hget, set_append_last,
    effValsOf, cpVals]

/-- C8: Create derives the stage's effective values on a fresh copy, so the
shared base map is left untouched: after the value-derivation steps of
Create, the map behind the shared reference is unchanged, and the stage's
own reference (a fresh allocation, distinct from the shared one) holds
exactly the effective values Create goes on to use. -/
theorem c8_create_preserves_main (env : CreateEnv) (stage : Stage) (σ : Store)
    (mainRef : Nat) (h : mainRef < σ.length) :
    storeGet (createDeriveVals env stage σ mainRef).1 mainRef = storeGet σ mainRef ∧
    (createDeriveVals env stage σ mainRef).2 ≠ mainRef ∧
    storeGet (createDeriveVals env stage σ mainRef).1 (createDeriveVals env stage σ mainRef).2 =
      effValsOf env stage (storeGet σ mainRef) := by
  rw [createDeriveVals_eq]
  refine ⟨?_, ?_, ?_⟩
  · exact List.getD_append _ _ _ _ h
  · exact Nat.ne_of_gt h
  · simp [storeGet, List.getD_append_right, le_refl]

theorem c8_witness :
    (0 : Nat) < ([[("a", "1")]] : Store).length ∧
    storeGet (createDeriveVals
        ⟨("", none), ("", none), none, none, none, fun _ => none, fun _ => none,
          fun _ => true, fun _ => []⟩
        ⟨"rel", "ns", false, "", [], [], ⟨[], []⟩, []⟩ [[("a", "1")]] 0).1 0 =
      storeGet [[("a", "1")]] 0 :=
  ⟨Nat.zero_lt_one,
    (c8_create_preserves_main
      ⟨("", none), ("", none), none, none, none, fun _ => none, fun _ => none,
        fun _ => true, fun _ => []⟩
      ⟨"rel", "ns", false, "", [], [], ⟨[], []⟩, []⟩ [[("a", "1")]] 0 Nat.zero_lt_one).1⟩

/-- C9: MergeVals gives the right-hand map priority: a key bound in next
looks up to next's value in the merged map, and a key not bound in next
keeps prev's binding; instantiated at a prev of a:1,b:2 and a next of
b:3,c:4 this yields a:1,b:3,c:4. -/
theorem c9_mergeVals_right_wins (prev next : Vals)
    (hnd : (next.map Prod.fst).Nodup) (k : String) :
    lookupVal (MergeVals prev next) k =
      match lookupVal next k with
      | some v => some v
      | none => lookupVal prev k :=
  mergeVals_lookup next hnd prev k

theorem c9_witness :
    ((([("b", "3"), ("c", "4")] : Vals).map Prod.fst).Nodup ∧
      MergeVals [("a", "1"), ("b", "2")] [("b", "3"), ("c", "4")] =
        [("a", "1"), ("b", "3"), ("c", "4")] ∧
      lookupVal (MergeVals [("a", "1"), ("b", "2")] [("b", "3"), ("c", "4")]) "b" = some "3" ∧
      lookupVal (MergeVals [("a", "1"), ("b", "2")] [("b", "3"), ("c", "4")]) "a" = some "1") :=
  ⟨by decide, by decide,
    (c9_mergeVals_right_wins [("a", "1"), ("b", "2")] [("b", "3"), ("c", "4")]
      (by decide) "b").trans (by decide),
    (c9_mergeVals_right_wins [("a", "1"), ("b", "2")] [("b", "3"), ("c", "4")]
      (by decide) "a").trans (by decide)⟩

/-- C10: for a non-empty values map of size n, shellVars returns a list of
length 2n whose first n entries are empty strings and whose last n entries
are the KEY=VALUE strings, and the environment handed to a hook subprocess
therefore starts with those n spurious empty strings. -/
theorem c10_shellVars_spurious (vals : Vals) (osEnviron : List String)
    (h : 0 < vals.length) :
    (shellVars vals).length = 2 * vals.length ∧
    (shellVars vals).take vals.length = List.replicate vals.length "" ∧
    (shellVars vals).drop vals.length = vals.map (fun kv => kv.1 ++ "=" ++ kv.2) ∧
    (hookEnv (shellVars vals) osEnviron).take vals.length =
      List.replicate vals.length "" := by
  have hlen : (List.replicate vals.length ("" : String)).length = vals.length :=
    List.length_replicate vals.length ""
  refine ⟨?_, ?_, ?_, ?_⟩
  · simp [shellVars, two_mul]
  · rw [shellVars, List.take_left' hlen]
  · rw [shellVars, List.drop_left' hlen]
  · rw [hookEnv, shellVars, List.append_assoc, List.take_left' hlen]

theorem c10_witness :
    (0 : Nat) < ([("a", "1")] : Vals).length ∧
      ((shellVars [("a", "1")]).length = 2 * ([("a", "1")] : Vals).length ∧
       (shellVars [("a", "1")]).take ([("a", "1")] : Vals).length =
         List.replicate ([("a", "1")] : Vals).length "" ∧
       (shellVars [("a", "1")]).drop ([("a", "1")] : Vals).length =
         ([("a", "1")] : Vals).map (fun kv => kv.1 ++ "=" ++ kv.2) ∧
       (hookEnv (shellVars [("a", "1")]) ["PATH=/bin"]).take ([("a", "1")] : Vals).length =
         List.replicate ([("a", "1")] : Vals).length "") :=
  ⟨by decide, c10_shellVars_spurious [("a", "1")] ["PATH=/bin"] (by decide)⟩

/-- Events of a Create run that reaches the template loop: the preflight
status query, the dependency wait, the before-hook executions and the
renderings. -/
def createHead (env : CreateEnv) (stage : Stage) : List Event :=
  Event.statusQuery stage.Release :: Event.waitKeys stage.Depends ::
    ((shellJobs env.runJob stage.Jobs.Before).1 ++
      (renderLoop env.readFile env.renderOk stage.Templates).1)

/-- Events contributed by the two deferred calls of Create on a normal
return or a panic: the after hooks, then the completion signal. -/
def createDefers (env : CreateEnv) (stage : Stage) (key : String) : List Event :=
  (shellJobs env.runJob stage.Jobs.After).1 ++ [Event.complete [key]]

/-- Backend events of the install-or-upgrade decision. -/
def createDecisionEvs (env : CreateEnv) (stage : Stage) : List Event :=
  if env.statusRe.1 = "PENDING_INSTALL" ∨ env.statusRe.2.isSome then
    (if env.statusRe.2.isNone then [Event.deleteRelease stage.Release] else []) ++
      [Event.installChart stage.Release]
  else
    [Event.upgradeChart stage.Release]

theorem Create_cases (env : CreateEnv) (stage : Stage) (key : String) (main : Vals) :
    (∃ msg, Create env stage key main =
      (Outcome.err msg, [Event.statusQuery stage.Release, Event.complete [key]])) ∨
    Create env stage key main =
      (Outcome.panicked, createHead env stage ++ createDefers env stage key) ∨
    Create env stage key main = (Outcome.fatal "failed to render", createHead env stage) ∨
    (∃ e, Create env stage key main = (Outcome.fatal ("failed to install : " ++ e),
      createHead env stage ++ [Event.statusQuery stage.Release] ++ createDecisionEvs env stage)) ∨
    Create env stage key main = (Outcome.ok,
      createHead env stage ++ [Event.statusQuery stage.Release] ++
        createDecisionEvs env stage ++ createDefers env stage key) := by
  by_cases hab : (env.statusPre.2.isNone && stage.Abandon) = true
  · exact Or.inl ⟨"chart already installed", by simp [Create, hab]⟩
  · cases hck : checkRequires (effValsOf env stage main) stage.Requires with
    | some msg =>
      exact Or.inl ⟨msg, by simp [Create, hab, hck]⟩
    | none =>
      rcases hrl : renderLoop env.readFile env.renderOk stage.Templates with ⟨revs, ex⟩
      cases ex with
      | panicked =>
        refine Or.inr (Or.inl ?_)
        simp [Create, hab, hck, hrl, createHead, createDefers]
      | fatalExit =>
        refine Or.inr (Or.inr (Or.inl ?_))
        simp [Create, hab, hck, hrl, createHead]
      | proceed =>
        by_cases hio : env.statusRe.1 = "PENDING_INSTALL" ∨ env.statusRe.2.isSome
        · cases hins : env.install with
          | some e =>
            refine Or.inr (Or.inr (Or.inr (Or.inl ⟨e, ?_⟩)))
            simp [Create, hab, hck, hrl, createInstallOrUpgrade, hio, hins,
              createHead, createDecisionEvs]
          | none =>
            refine Or.inr (Or.inr (Or.inr (Or.inr ?_)))
            simp [Create, hab, hck, hrl, createInstallOrUpgrade, hio, hins,
              createHead, createDecisionEvs, createDefers]
        · refine Or.inr (Or.inr (Or.inr (Or.inr ?_)))
          simp [Create, hab, hck, hrl, createInstallOrUpgrade, hio,
            createHead, createDecisionEvs, createDefers]

theorem countEv_createHead (p : Event → Bool) (env : CreateEnv) (stage : Stage)
    (hsq : ∀ r, p (Event.statusQuery r) = false)
    (hw : ∀ ks, p (Event.waitKeys ks) = false)
    (hj : ∀ c, p (Event.runJob c) = false)
    (hr : ∀ t, p (Event.render t) = false) :
    countEv p (createHead env stage) = 0 := by
  have h1 := countEv_shellJobs_zero p env.runJob stage.Jobs.Before hj
  have h2 := countEv_renderLoop_zero p env.readFile env.renderOk stage.Templates hr
  simp only [countEv] at h1 h2
  simp [createHead, countEv, List.countP_cons, List.countP_append, hsq, hw, h1, h2]

theorem isCompleteFor_self (key : String) :
    isCompleteFor key (Event.complete [key]) = true := by
  simp [isCompleteFor]

theorem countEv_createDefers (env : CreateEnv) (stage : Stage) (key : String) :
    countEv (isCompleteFor key) (createDefers env stage key) = 1 := by
  have h1 := countEv_shellJobs_zero (isCompleteFor key) env.runJob stage.Jobs.After
    (fun _ => rfl)
  simp only [countEv] at h1
  simp [createDefers, countEv, List.countP_append, List.countP_cons, h1,
    isCompleteFor_self key]

theorem countEv_createDecisionEvs (p : Event → Bool) (env : CreateEnv) (stage : Stage)
    (hd : ∀ r, p (Event.deleteRelease r) = false)
    (hi : ∀ r, p (Event.installChart r) = false)
    (hu : ∀ r, p (Event.upgradeChart r) = false) :
    countEv p (createDecisionEvs env stage) = 0 := by
  unfold createDecisionEvs
  by_cases hio : env.statusRe.1 = "PENDING_INSTALL" ∨ env.statusRe.2.isSome
  · rw [if_pos hio]
    by_cases hn : env.statusRe.2.isNone = true
    · simp [hn, countEv, List.countP_cons, List.countP_append, hd, hi]
    · simp [hn, countEv, List.countP_cons, List.countP_append, hi]
  · rw [if_neg hio]
    simp [countEv, List.countP_cons, hu]

/-- C1 (amended): on every exit path of Create on which the process
survives the stage — normal return with ok, normal return with an error
(precondition or requirement failure) and panic during a template read —
the stage's own key is signaled complete on the DependencyGraph exactly
once; the claim's unqualified form fails because the log.Fatalf exits
taken on a render failure or an InstallChart failure terminate the process
before the deferred Complete runs. -/
theorem c1_complete_signaled_unless_fatal (env : CreateEnv) (stage : Stage)
    (key : String) (main : Vals)
    (h : (Create env stage key main).1.isFatal = false) :
    countEv (isCompleteFor key) (Create env stage key main).2 = 1 := by
  have hhead : countEv (isCompleteFor key) (createHead env stage) = 0 :=
    countEv_createHead _ env stage (fun _ => rfl) (fun _ => rfl) (fun _ => rfl)
      (fun _ => rfl)
  have hdef := countEv_createDefers env stage key
  have hdec : countEv (isCompleteFor key) (createDecisionEvs env stage) = 0 :=
    countEv_createDecisionEvs _ env stage (fun _ => rfl) (fun _ => rfl) (fun _ => rfl)
  rcases Create_cases env stage key main with ⟨msg, hc⟩ | hc | hc | ⟨e, hc⟩ | hc
  · rw [hc]
    simp [countEv, List.countP_cons, isCompleteFor_self key, isCompleteFor]
  · rw [hc]
    simp only [countEv_append, hhead, hdef]
  · rw [hc] at h
    simp [Outcome.isFatal] at h
  · rw [hc] at h
    simp [Outcome.isFatal] at h
  · rw [hc]
    simp only [countEv_append, hhead, hdef, hdec]
    simp [countEv, List.countP_cons, isCompleteFor]

/-- Environment in which every external call succeeds and the release does
not yet exist. -/
def envOk : CreateEnv :=
  ⟨("", some "release: not found"), ("", some "release: not found"), none, none, none,
    fun _ => none, fun _ => some "data", fun _ => true, fun _ => []⟩

/-- Minimal stage with no requirements, dependencies, hooks or templates. -/
def stageOk : Stage := ⟨"rel", "ns", false, "", [], [], ⟨[], []⟩, []⟩

theorem c1_witness :
    (Create envOk stageOk "db" []).1.isFatal = false ∧
    countEv (isCompleteFor "db") (Create envOk stageOk "db" []).2 = 1 :=
  ⟨rfl, c1_complete_signaled_unless_fatal envOk stageOk "db" [] rfl⟩

/-- Environment whose template rendering fails, triggering the log.Fatalf
inside Generate. -/
def c1BadEnv : CreateEnv :=
  ⟨("DEPLOYED", none), ("DEPLOYED", none), none, none, none,
    fun _ => none, fun _ => some "data", fun _ => false, fun _ => []⟩

/-- Stage with one template, used with c1BadEnv. -/
def c1BadStage : Stage := ⟨"rel", "ns", false, "", [], [], ⟨[], []⟩, ["t.yaml"]⟩

/-- Counterexample to C1 as stated: on a template render failure Generate
calls log.Fatalf, the process exits, the deferred Complete never runs, and
the trace carries no completion signal for the stage's key. -/
theorem c1_counterexample :
    (Create c1BadEnv c1BadStage "db" []).1 = Outcome.fatal "failed to render" ∧
    countEv (isCompleteFor "db") (Create c1BadEnv c1BadStage "db" []).2 = 0 :=
  ⟨rfl, rfl⟩

/-- C2: when the stage is marked abandon and the preflight status query
succeeds (the release exists), Create fails with the precondition error,
performs no install, upgrade or delete call on the backend, and still
signals its own key exactly once. -/
theorem c2_abandon_precondition (env : CreateEnv) (stage : Stage) (key : String)
    (main : Vals) (hab : stage.Abandon = true) (hst : env.statusPre.2 = none) :
    (Create env stage key main).1 = Outcome.err "chart already installed" ∧
    countEv isBackendMutation (Create env stage key main).2 = 0 ∧
    countEv (isCompleteFor key) (Create env stage key main).2 = 1 := by
  have htr : Create env stage key main =
      (Outcome.err "chart already installed",
        [Event.statusQuery stage.Release, Event.complete [key]]) := by
    simp [Create, hab, hst]
  rw [htr]
  refine ⟨rfl, ?_, ?_⟩
  · simp [countEv, List.countP_cons, isBackendMutation, isInstallEv, isDeleteEv,
      isUpgradeEv]
  · simp [countEv, List.countP_cons, isCompleteFor_self key, isCompleteFor]

/-- Stage marked abandon, with an existing release in c2Env. -/
def c2Stage : Stage := ⟨"rel", "ns", true, "", [], [], ⟨[], []⟩, []⟩

/-- Environment whose preflight status query succeeds. -/
def c2Env : CreateEnv :=
  ⟨("DEPLOYED", none), ("DEPLOYED", none), none, none, none,
    fun _ => none, fun _ => some "data", fun _ => true, fun _ => []⟩

theorem c2_witness :
    (c2Stage.Abandon = true ∧ c2Env.statusPre.2 = none) ∧
    (Create c2Env c2Stage "db" []).1 = Outcome.err "chart already installed" ∧
    countEv isBackendMutation (Create c2Env c2Stage "db" []).2 = 0 ∧
    countEv (isCompleteFor "db") (Create c2Env c2Stage "db" []).2 = 1 :=
  ⟨⟨rfl, rfl⟩, c2_abandon_precondition c2Env c2Stage "db" [] rfl rfl⟩

theorem checkRequires_some_of_missing (values : Vals) (reqs : List String)
    (h : ∃ r ∈ reqs, lookupVal values r = none) :
    checkRequires values reqs = some "requirement not met" := by
  induction reqs with
  | nil => simp at h
  | cons r rest ih =>
    obtain ⟨r0, hr0, hnone⟩ := h
    simp only [checkRequires]
    by_cases hcase : (lookupVal values r).isNone = true
    · simp [hcase]
    · rw [if_neg (by simp [hcase])]
      apply ih
      rcases List.mem_cons.mp hr0 with heq | hmem
      · subst heq
        exact absurd (Option.isNone_iff_eq_none.mpr hnone) hcase
      · exact ⟨r0, hmem, hnone⟩

/-- C5: when some required key is missing from the stage's effective
values, Create returns an error and its trace contains no DependencyGraph
Wait call at all — the requirement check strictly precedes the dependency
wait. -/
theorem c5_requires_precedes_wait (env : CreateEnv) (stage : Stage) (key : String)
    (main : Vals)
    (h : ∃ r ∈ stage.Requires, lookupVal (effValsOf env stage main) r = none) :
    (∃ msg, (Create env stage key main).1 = Outcome.err msg) ∧
    countEv isWaitEv (Create env stage key main).2 = 0 := by
  have hck := checkRequires_some_of_missing _ _ h
  by_cases hab : (env.statusPre.2.isNone && stage.Abandon) = true
  · have htr : Create env stage key main =
        (Outcome.err "chart already installed",
          [Event.statusQuery stage.Release, Event.complete [key]]) := by
      simp [Create, hab]
    rw [htr]
    exact ⟨⟨_, rfl⟩, by simp [countEv, List.countP_cons, isWaitEv]⟩
  · have htr : Create env stage key main =
        (Outcome.err "requirement not met",
          [Event.statusQuery stage.Release, Event.complete [key]]) := by
      simp [Create, hab, hck]
    rw [htr]
    exact ⟨⟨_, rfl⟩, by simp [countEv, List.countP_cons, isWaitEv]⟩

/-- Stage requiring the value key license, which envOk's value sources do
not provide. -/
def c5Stage : Stage := ⟨"rel", "ns", false, "", ["license"], ["db"], ⟨[], []⟩, []⟩

theorem c5_witness :
    (∃ r ∈ c5Stage.Requires, lookupVal (effValsOf envOk c5Stage []) r = none) ∧
    ((∃ msg, (Create envOk c5Stage "api" []).1 = Outcome.err msg) ∧
      countEv isWaitEv (Create envOk c5Stage "api" []).2 = 0) :=
  ⟨⟨"license", by decide, rfl⟩,
    c5_requires_precedes_wait envOk c5Stage "api" [] ⟨"license", by decide, rfl⟩⟩

/-- C6: Destroy waits on its own key strictly before deleting the release,
and on every exit path — unmet requirement, delete failure or success — its
trace ends with the single completion signal for every key in
stage.Depends. -/
theorem c6_destroy_wait_then_signal (env : DestroyEnv) (stage : Stage) (key : String)
    (values : Vals) :
    (Destroy env stage key values).2 = [Event.complete stage.Depends] ∨
    (Destroy env stage key values).2 =
      [Event.waitKeys [key], Event.deleteRelease stage.Release,
        Event.complete stage.Depends] := by
  cases hck : checkRequires values stage.Requires with
  | some msg => exact Or.inl (by simp [Destroy, hck])
  | none =>
    cases hd : env.deleteRel with
    | some e => exact Or.inr (by simp [Destroy, hck, hd])
    | none => exact Or.inr (by simp [Destroy, hck, hd])

/-- Environment in which every shell command fails and the release exists
with a settled status. -/
def c3Env : CreateEnv :=
  ⟨("DEPLOYED", none), ("DEPLOYED", none), none, none, none,
    fun _ => some "exit status 1", fun _ => some "data", fun _ => true, fun _ => []⟩

/-- Stage with one before hook, used with c3Env. -/
def c3Stage : Stage := ⟨"rel", "ns", false, "", [], [], ⟨["false"], []⟩, []⟩

/-- C3 evaluated at the failing input: the before hook fails, yet Create
discards the error shellJobs returns (line 155), proceeds past the render
step to the backend action, and returns success. -/
theorem c3_hook_error_discarded :
    (shellJobs c3Env.runJob c3Stage.Jobs.Before).2 = some "exit status 1" ∧
    (Create c3Env c3Stage "db" []).1 = Outcome.ok ∧
    countEv isUpgradeEv (Create c3Env c3Stage "db" []).2 = 1 :=
  ⟨rfl, rfl, rfl⟩

/-- Environment in which the release exists and is settled, and the
UpgradeChart call fails. -/
def c4Env : CreateEnv :=
  ⟨("DEPLOYED", none), ("DEPLOYED", none), none, some "upgrade failed", none,
    fun _ => none, fun _ => some "data", fun _ => true, fun _ => []⟩

/-- C4 evaluated at the failing input: the UpgradeChart error is discarded
by the source (line 187), and the err the source re-tests afterwards is the
status-query error, nil on the upgrade branch, so Create reports success
although the upgrade failed. -/
theorem c4_upgrade_error_not_fatal :
    c4Env.upgrade = some "upgrade failed" ∧
    (Create c4Env stageOk "db" []).1 = Outcome.ok ∧
    countEv isUpgradeEv (Create c4Env stageOk "db" []).2 = 1 :=
  ⟨rfl, rfl, rfl⟩

/-- Create never reads the result of the UpgradeChart call: its outcome and
trace are unchanged under any value of the upgrade error. -/
theorem create_ignores_upgrade_result (env : CreateEnv) (stage : Stage) (key : String)
    (main : Vals) (e : Option String) :
    Create { env with upgrade := e } stage key main = Create env stage key main := rfl

theorem countEv_createDefers_zero (p : Event → Bool) (env : CreateEnv) (stage : Stage)
    (key : String) (hj : ∀ c, p (Event.runJob c) = false)
    (hc : ∀ ks, p (Event.complete ks) = false) :
    countEv p (createDefers env stage key) = 0 := by
  have h1 := countEv_shellJobs_zero p env.runJob stage.Jobs.After hj
  simp only [countEv] at h1
  simp [createDefers, countEv, List.countP_append, List.countP_cons, h1, hc]

/-- C7: when Create reaches the install-or-upgrade decision (no abandon
exit, requirements met, templates read and rendered), the re-queried status
drives it as follows: status PENDING_INSTALL with no error deletes the
stale release and then installs (the two backend calls adjacent in that
order, no upgrade); a failed status query installs without deleting; any
other successful status upgrades without installing or deleting. -/
theorem c7_install_vs_upgrade (env : CreateEnv) (stage : Stage) (key : String)
    (main : Vals)
    (hab : (env.statusPre.2.isNone && stage.Abandon) = false)
    (hck : checkRequires (effValsOf env stage main) stage.Requires = none)
    (hrl : (renderLoop env.readFile env.renderOk stage.Templates).2 = LoopExit.proceed) :
    (env.statusRe.1 = "PENDING_INSTALL" ∧ env.statusRe.2 = none →
      (∃ a b, (Create env stage key main).2 =
        a ++ [Event.deleteRelease stage.Release, Event.installChart stage.Release] ++ b) ∧
      countEv isDeleteEv (Create env stage key main).2 = 1 ∧
      countEv isInstallEv (Create env stage key main).2 = 1 ∧
      countEv isUpgradeEv (Create env stage key main).2 = 0) ∧
    (env.statusRe.2.isSome = true →
      countEv isDeleteEv (Create env stage key main).2 = 0 ∧
      countEv isInstallEv (Create env stage key main).2 = 1 ∧
      countEv isUpgradeEv (Create env stage key main).2 = 0) ∧
    (env.statusRe.1 ≠ "PENDING_INSTALL" ∧ env.statusRe.2 = none →
      countEv isDeleteEv (Create env stage key main).2 = 0 ∧
      countEv isInstallEv (Create env stage key main).2 = 0 ∧
      countEv isUpgradeEv (Create env stage key main).2 = 1) := by
  have htr : Create env stage key main =
      ((createInstallOrUpgrade env stage (createDefers env stage key)).1,
        createHead env stage ++ [Event.statusQuery stage.Release] ++
          (createInstallOrUpgrade env stage (createDefers env stage key)).2) := by
    rcases hrl2 : renderLoop env.readFile env.renderOk stage.Templates with ⟨revs, ex⟩
    rw [hrl2] at hrl
    simp only at hrl
    subst hrl
    simp [Create, hab, hck, hrl2, createHead, createDefers]
  have hhd_d : countEv isDeleteEv (createHead env stage) = 0 :=
    countEv_createHead _ env stage (fun _ => rfl) (fun _ => rfl) (fun _ => rfl)
      (fun _ => rfl)
  have hhd_i : countEv isInstallEv (createHead env stage) = 0 :=
    countEv_createHead _ env stage (fun _ => rfl) (fun _ => rfl) (fun _ => rfl)
      (fun _ => rfl)
  have hhd_u : countEv isUpgradeEv (createHead env stage) = 0 :=
    countEv_createHead _ env stage (fun _ => rfl) (fun _ => rfl) (fun _ => rfl)
      (fun _ => rfl)
  have hdf_d : countEv isDeleteEv (createDefers env stage key) = 0 :=
    countEv_createDefers_zero _ env stage key (fun _ => rfl) (fun _ => rfl)
  have hdf_i : countEv isInstallEv (createDefers env stage key) = 0 :=
    countEv_createDefers_zero _ env stage key (fun _ => rfl) (fun _ => rfl)
  have hdf_u : countEv isUpgradeEv (createDefers env stage key) = 0 :=
    countEv_createDefers_zero _ env stage key (fun _ => rfl) (fun _ => rfl)
  simp only [countEv] at hhd_d hhd_i hhd_u hdf_d hdf_i hdf_u
  refine ⟨?_, ?_, ?_⟩
  · rintro ⟨hpend, hnone⟩
    have hcond : env.statusRe.1 = "PENDING_INSTALL" ∨ env.statusRe.2.isSome :=
      Or.inl hpend
    cases hins : env.install with
    | some e =>
      have hD : createInstallOrUpgrade env stage (createDefers env stage key) =
          (Outcome.fatal ("failed to install : " ++ e),
            [Event.deleteRelease stage.Release, Event.installChart stage.Release]) := by
        simp only [createInstallOrUpgrade]
        rw [if_pos hcond]
        simp [hnone, hins]
      rw [htr, hD]
      refine ⟨⟨createHead env stage ++ [Event.statusQuery stage.Release], [], by simp⟩,
        ?_, ?_, ?_⟩ <;>
        simp [countEv, List.countP_append, List.countP_cons, isDeleteEv, isInstallEv,
          isUpgradeEv, hhd_d, hhd_i, hhd_u, hdf_d, hdf_i, hdf_u]
    | none =>
      have hD : createInstallOrUpgrade env stage (createDefers env stage key) =
          (Outcome.ok,
            [Event.deleteRelease stage.Release, Event.installChart stage.Release] ++
              createDefers env stage key) := by
        simp only [createInstallOrUpgrade]
        rw [if_pos hcond]
        simp [hnone, hins]
      rw [htr, hD]
      refine ⟨⟨createHead env stage ++ [Event.statusQuery stage.Release],
        createDefers env stage key, by simp⟩, ?_, ?_, ?_⟩ <;>
        simp [countEv, List.countP_append, List.countP_cons, isDeleteEv, isInstallEv,
          isUpgradeEv, hhd_d, hhd_i, hhd_u, hdf_d, hdf_i, hdf_u]
  · intro hsome
    obtain ⟨v, hv⟩ := Option.isSome_iff_exists.mp hsome
    have hcond : env.statusRe.1 = "PENDING_INSTALL" ∨ env.statusRe.2.isSome :=
      Or.inr hsome
    cases hins : env.install with
    | some e =>
      have hD : createInstallOrUpgrade env stage (createDefers env stage key) =
          (Outcome.fatal ("failed to install : " ++ e),
            [Event.installChart stage.Release]) := by
        simp only [createInstallOrUpgrade]
        rw [if_pos hcond]
        simp [hv, hins]
      rw [htr, hD]
      refine ⟨?_, ?_, ?_⟩ <;>
        simp [countEv, List.countP_append, List.countP_cons, isDeleteEv, isInstallEv,
          isUpgradeEv, hhd_d, hhd_i, hhd_u, hdf_d, hdf_i, hdf_u]
    | none =>
      have hD : createInstallOrUpgrade env stage (createDefers env stage key) =
          (Outcome.ok,
            [Event.installChart stage.Release] ++ createDefers env stage key) := by
        simp only [createInstallOrUpgrade]
        rw [if_pos hcond]
        simp [hv, hins]
      rw [htr, hD]
      refine ⟨?_, ?_, ?_⟩ <;>
        simp [countEv, List.countP_append, List.countP_cons, isDeleteEv, isInstallEv,
          isUpgradeEv, hhd_d, hhd_i, hhd_u, hdf_d, hdf_i, hdf_u]
  · rintro ⟨hne, hnone⟩
    have hcond : ¬(env.statusRe.1 = "PENDING_INSTALL" ∨ env.statusRe.2.isSome = true) := by
      rintro (h | h)
      · exact hne h
      · rw [hnone] at h
        simp at h
    have hD : createInstallOrUpgrade env stage (createDefers env stage key) =
        (Outcome.ok,
          [Event.upgradeChart stage.Release] ++ createDefers env stage key) := by
      simp only [createInstallOrUpgrade]
      rw [if_neg hcond]
    rw [htr, hD]
    refine ⟨?_, ?_, ?_⟩ <;>
      simp [countEv, List.countP_append, List.countP_cons, isDeleteEv, isInstallEv,
        isUpgradeEv, hhd_d, hhd_i, hhd_u, hdf_d, hdf_i, hdf_u]

/-- Environment whose re-queried status is a half-finished install. -/
def c7Env : CreateEnv :=
  ⟨("DEPLOYED", none), ("PENDING_INSTALL", none), none, none, none,
    fun _ => none, fun _ => some "data", fun _ => true, fun _ => []⟩

theorem c7_witness :
    ((c7Env.statusPre.2.isNone && stageOk.Abandon) = false ∧
     checkRequires (effValsOf c7Env stageOk []) stageOk.Requires = none ∧
     (renderLoop c7Env.readFile c7Env.renderOk stageOk.Templates).2 = LoopExit.proceed ∧
     c7Env.statusRe.1 = "PENDING_INSTALL" ∧ c7Env.statusRe.2 = none) ∧
    countEv isDeleteEv (Create c7Env stageOk "db" []).2 = 1 ∧
    countEv isInstallEv (Create c7Env stageOk "db" []).2 = 1 ∧
    countEv isUpgradeEv (Create c7Env stageOk "db" []).2 = 0 :=
  ⟨⟨rfl, rfl, rfl, rfl, rfl⟩,
    ((c7_install_vs_upgrade c7Env stageOk "db" [] rfl rfl rfl).1 ⟨rfl, rfl⟩).2⟩

end Compass
